import Mathlib

/-!
Shallow embedding of `torchvision/prototype/transforms/_color.py` and proofs
about its transforms: `ColorJitter`, `_RandomChannelShuffle`,
`RandomPhotometricDistort` and `RandomEqualize`.

Python floats are modelled as rationals (ℚ); the open upper bound
`float("inf")` of the default bound `(0, inf)` is modelled as `Option.none`
in the bound's second component.  Fallible code returns `Except`.
-/

/-- The shapes a value passed to `ColorJitter._check_input` can take:
Python `None`, a single float, a sequence of floats of any length, or a
string (which in Python is also a `Sequence`, but whose elements cannot be
compared against floats). -/
inductive CJValue where
  | none
  | single (v : ℚ)
  | seq (xs : List ℚ)
  | str (s : String)
deriving DecidableEq, Repr

/-- The two Python exception types `_check_input` can raise (both are
"InvalidArgument" failures in the spec's taxonomy): `ValueError` for a
negative single number or an out-of-bound pair, `TypeError` for any other
malformed shape (including the comparison `TypeError` a length-2 string
would trigger at the bound check). -/
inductive CJError where
  | valueError (msg : String)
  | typeError (msg : String)
deriving DecidableEq, Repr

/-- A result is an "InvalidArgument" failure iff it is an error. -/
def isInvalidArgument {α : Type} : Except CJError α → Bool
  | Except.error _ => true
  | Except.ok _ => false

/-- Comparison `x ≤ bound[1]` where the upper bound `Option.none` stands for
`float("inf")`: always true for the infinite bound. -/
def leBoundHigh (x : ℚ) : Option ℚ → Bool
  | Option.none => true
  | Option.some b => decide (x ≤ b)

/-- Embedding of `ColorJitter._check_input` (lines 30-53 of `_color.py`).
The bound `(bound[0], bound[1])` is passed as `boundLow` and `boundHigh`,
with `boundHigh = Option.none` standing for `float("inf")`. -/
def ColorJitter._check_input (value : CJValue) (center : ℚ := 1)
    (boundLow : ℚ := 0) (boundHigh : Option ℚ := Option.none)
    (clip_first_on_zero : Bool := true) : Except CJError (Option (ℚ × ℚ)) :=
  match value with
  | CJValue.none => Except.ok Option.none
  | CJValue.single v =>
      if v < 0 then
        Except.error (CJError.valueError "single number must be non negative")
      else
        let v0 := center - v
        let v1 := center + v
        let v0 := if clip_first_on_zero then max v0 0 else v0
        Except.ok
          (if v0 = center ∧ v1 = center then Option.none
           else Option.some (v0, v1))
  | CJValue.seq xs =>
      match xs with
      | [lo, hi] =>
          if boundLow ≤ lo ∧ lo ≤ hi ∧ leBoundHigh hi boundHigh = true then
            Except.ok
              (if lo = center ∧ hi = center then Option.none
               else Option.some (lo, hi))
          else
            Except.error (CJError.valueError "values should be between bound")
      | _ =>
          Except.error
            (CJError.typeError "should be a single number or a sequence with length 2")
  | CJValue.str s =>
      if s.length = 2 then
        Except.error
          (CJError.typeError "comparison not supported between float and str")
      else
        Except.error
          (CJError.typeError "should be a single number or a sequence with length 2")

/-- C1: for every non-negative float `v`, `_check_input(v)` with the default
center `1.0`, default bound `[0, inf)` and the zero-clamp flag set returns
`(max(1 - v, 0), 1 + v)`, except when `v = 0`, where it returns `None`. -/
theorem check_input_single_default (v : ℚ) (hv : 0 ≤ v) :
    ColorJitter._check_input (CJValue.single v) 1 0 Option.none true
      = Except.ok (if v = 0 then Option.none else Option.some (max (1 - v) 0, 1 + v)) := by
  simp only [ColorJitter._check_input, not_lt.mpr hv, if_false, if_true]
  by_cases h0 : v = 0
  · subst h0; norm_num
  · have h1 : ¬((1 - v) ⊔ 0 = 1 ∧ 1 + v = 1) := fun h => h0 (by linarith [h.2])
    rw [if_neg h0, if_neg h1]

/-- Witness for C1 at the concrete inputs `v = 2` and `v = 0`. -/
theorem check_input_single_default_witness :
    (0:ℚ) ≤ 2
    ∧ ColorJitter._check_input (CJValue.single 2) 1 0 Option.none true
        = Except.ok (Option.some (0, 3))
    ∧ ColorJitter._check_input (CJValue.single 0) 1 0 Option.none true
        = Except.ok Option.none := by
  refine ⟨by norm_num, ?_, ?_⟩
  · have h := check_input_single_default 2 (by norm_num)
    rw [h]; norm_num
  · have h := check_input_single_default 0 (by norm_num)
    rw [h]; norm_num

/-- C2: for every two-element sequence `(lo, hi)` with
`bound.low ≤ lo ≤ hi ≤ bound.high`, `_check_input((lo, hi))` returns
`(lo, hi)` unchanged, except when `lo = hi = center`, where it returns
`None` — for every center, bound and clamp flag. -/
theorem check_input_pair_valid (lo hi center boundLow : ℚ) (boundHigh : Option ℚ)
    (clip : Bool) (h1 : boundLow ≤ lo) (h2 : lo ≤ hi)
    (h3 : leBoundHigh hi boundHigh = true) :
    ColorJitter._check_input (CJValue.seq [lo, hi]) center boundLow boundHigh clip
      = Except.ok
          (if lo = center ∧ hi = center then Option.none
           else Option.some (lo, hi)) := by
  simp only [ColorJitter._check_input]
  rw [if_pos ⟨h1, h2, h3⟩]

/-- Witness for C2 at the concrete pairs `(1/2, 3/2)` (kept) and `(1, 1)`
with center `1` (collapsed to `None`). -/
theorem check_input_pair_valid_witness :
    ((0:ℚ) ≤ 1/2 ∧ (1/2:ℚ) ≤ 3/2 ∧ leBoundHigh (3/2) Option.none = true)
    ∧ ColorJitter._check_input (CJValue.seq [1/2, 3/2]) 1 0 Option.none true
        = Except.ok (Option.some (1/2, 3/2))
    ∧ ColorJitter._check_input (CJValue.seq [1, 1]) 1 0 Option.none true
        = Except.ok Option.none := by
  refine ⟨⟨by norm_num, by norm_num, rfl⟩, ?_, ?_⟩
  · have h := check_input_pair_valid (1/2) (3/2) 1 0 Option.none true
      (by norm_num) (by norm_num) rfl
    rw [h]; norm_num
  · have h := check_input_pair_valid 1 1 1 0 Option.none true
      (by norm_num) (by norm_num) rfl
    rw [h]; norm_num

/-- C3: `_check_input` fails with `InvalidArgument` on every malformed
input — a negative single float, a pair violating the bound/order check, a
sequence whose length is not 2, and a string — while `None` is returned as
`None` without failing; for every center, bound and clamp flag. -/
theorem check_input_invalid_inputs :
    (∀ (c bl : ℚ) (bh : Option ℚ) (cl : Bool),
      ColorJitter._check_input CJValue.none c bl bh cl = Except.ok Option.none)
    ∧ (∀ (v c bl : ℚ) (bh : Option ℚ) (cl : Bool), v < 0 →
        isInvalidArgument (ColorJitter._check_input (CJValue.single v) c bl bh cl) = true)
    ∧ (∀ (lo hi c bl : ℚ) (bh : Option ℚ) (cl : Bool),
        ¬(bl ≤ lo ∧ lo ≤ hi ∧ leBoundHigh hi bh = true) →
        isInvalidArgument (ColorJitter._check_input (CJValue.seq [lo, hi]) c bl bh cl) = true)
    ∧ (∀ (xs : List ℚ) (c bl : ℚ) (bh : Option ℚ) (cl : Bool), xs.length ≠ 2 →
        isInvalidArgument (ColorJitter._check_input (CJValue.seq xs) c bl bh cl) = true)
    ∧ (∀ (s : String) (c bl : ℚ) (bh : Option ℚ) (cl : Bool),
        isInvalidArgument (ColorJitter._check_input (CJValue.str s) c bl bh cl) = true) := by
  refine ⟨fun c bl bh cl => rfl, ?_, ?_, ?_, ?_⟩
  · intro v c bl bh cl hv
    simp only [ColorJitter._check_input]
    rw [if_pos hv]
    rfl
  · intro lo hi c bl bh cl hbad
    simp only [ColorJitter._check_input]
    rw [if_neg hbad]
    rfl
  · intro xs c bl bh cl hlen
    match xs with
    | [] => rfl
    | [_] => rfl
    | [_, _] => exact absurd rfl hlen
    | _ :: _ :: _ :: _ => rfl
  · intro s c bl bh cl
    simp only [ColorJitter._check_input]
    by_cases h : s.length = 2
    · rw [if_pos h]; rfl
    · rw [if_neg h]; rfl

/-- Witness for C3 at the spec's concrete inputs: `None`, `-0.1`,
`(0.6, 0.4)`, a 3-element sequence and a string. -/
theorem check_input_invalid_inputs_witness :
    ColorJitter._check_input CJValue.none 1 0 Option.none true = Except.ok Option.none
    ∧ isInvalidArgument
        (ColorJitter._check_input (CJValue.single (-(1/10))) 1 0 Option.none true) = true
    ∧ isInvalidArgument
        (ColorJitter._check_input (CJValue.seq [3/5, 2/5]) 1 0 Option.none true) = true
    ∧ isInvalidArgument
        (ColorJitter._check_input (CJValue.seq [1, 2, 3]) 1 0 Option.none true) = true
    ∧ isInvalidArgument
        (ColorJitter._check_input (CJValue.str "abc") 1 0 Option.none true) = true := by
  refine ⟨check_input_invalid_inputs.1 1 0 Option.none true,
    check_input_invalid_inputs.2.1 (-(1/10)) 1 0 Option.none true (by norm_num),
    check_input_invalid_inputs.2.2.1 (3/5) (2/5) 1 0 Option.none true ?_,
    check_input_invalid_inputs.2.2.2.1 [1, 2, 3] 1 0 Option.none true (by norm_num),
    check_input_invalid_inputs.2.2.2.2 "abc" 1 0 Option.none true⟩
  intro h
  have := h.2.1
  norm_num at this

/-- C4 counterexample: with center `-1`, the zero-clamp flag set and the
single float `1/2`, `_check_input` returns the pair `(0, -1/2)`, whose low
end exceeds its high end — refuting "low ≤ high for any center, bound and
clamp-flag arguments". -/
theorem check_input_low_le_high_counterexample :
    ColorJitter._check_input (CJValue.single (1/2)) (-1) 0 Option.none true
      = Except.ok (Option.some (0, -(1/2)))
    ∧ ¬((0:ℚ) ≤ -(1/2)) := by
  constructor
  · simp only [ColorJitter._check_input]
    rw [if_neg (by norm_num)]
    norm_num
  · norm_num

/-- C4 amended: every non-None pair returned by `_check_input` satisfies
`low ≤ high` provided the center is non-negative (with a negative center
the zero-clamp of the single-float branch can push the low end above the
high end); and whenever the zero-clamp flag is set and the input is a
single float, the returned lower bound is `≥ 0`, for any center. -/
theorem check_input_pair_invariant_amended (value : CJValue) (c bl : ℚ)
    (bh : Option ℚ) (cl : Bool) (lo hi : ℚ)
    (hres : ColorJitter._check_input value c bl bh cl = Except.ok (Option.some (lo, hi))) :
    (0 ≤ c → lo ≤ hi)
    ∧ (∀ v, value = CJValue.single v → cl = true → 0 ≤ lo) := by
  match value with
  | CJValue.none =>
      exact Option.noConfusion (Except.ok.inj hres)
  | CJValue.single v =>
      simp only [ColorJitter._check_input] at hres
      by_cases hv : v < 0
      · rw [if_pos hv] at hres; exact absurd hres (by simp)
      · rw [if_neg hv] at hres
        push_neg at hv
        by_cases hcol : (if cl then max (c - v) 0 else c - v) = c ∧ c + v = c
        · rw [if_pos hcol] at hres; simp at hres
        · rw [if_neg hcol] at hres
          simp only [Except.ok.injEq, Option.some.injEq, Prod.mk.injEq] at hres
          obtain ⟨hlo, hhi⟩ := hres
          constructor
          · intro hc
            subst hlo; subst hhi
            cases cl with
            | false =>
                rw [if_neg (by decide)]
                linarith
            | true =>
                rw [if_pos rfl]
                exact max_le (by linarith) (by linarith)
          · intro w hw hcl
            cases hw
            subst hcl
            rw [if_pos rfl] at hlo
            subst hlo
            exact le_max_right _ _
  | CJValue.seq xs =>
      match xs with
      | [a, b] =>
          simp only [ColorJitter._check_input] at hres
          by_cases hok : bl ≤ a ∧ a ≤ b ∧ leBoundHigh b bh = true
          · rw [if_pos hok] at hres
            by_cases hcol : a = c ∧ b = c
            · rw [if_pos hcol] at hres; simp at hres
            · rw [if_neg hcol] at hres
              simp only [Except.ok.injEq, Option.some.injEq, Prod.mk.injEq] at hres
              obtain ⟨hlo, hhi⟩ := hres
              subst hlo; subst hhi
              exact ⟨fun _ => hok.2.1, fun v hv => by cases hv⟩
          · rw [if_neg hok] at hres; exact absurd hres (by simp)
      | [] => simp [ColorJitter._check_input] at hres
      | [_] => simp [ColorJitter._check_input] at hres
      | _ :: _ :: _ :: _ => simp [ColorJitter._check_input] at hres
  | CJValue.str s =>
      simp only [ColorJitter._check_input] at hres
      by_cases h : s.length = 2
      · rw [if_pos h] at hres; exact absurd hres (by simp)
      · rw [if_neg h] at hres; exact absurd hres (by simp)

/-- Witness for the amended C4 at the concrete input `v = 2`, center `1`,
clamp flag set: the returned pair is `(0, 3)` with `0 ≤ 3` and `0 ≤ 0`. -/
theorem check_input_pair_invariant_amended_witness :
    (0:ℚ) ≤ 3 ∧ (0:ℚ) ≤ 0 := by
  have hres : ColorJitter._check_input (CJValue.single 2) 1 0 Option.none true
      = Except.ok (Option.some (0, 3)) := by
    simp only [ColorJitter._check_input]
    rw [if_neg (by norm_num)]
    norm_num
  have h := check_input_pair_invariant_amended (CJValue.single 2) 1 0
    Option.none true 0 3 hres
  exact ⟨h.1 (by norm_num), h.2 2 rfl rfl⟩

/-!
ColorJitter's sampling and dispatch (lines 16-84 of `_color.py`).  The
external pixel kernels `F.adjust_brightness` / `F.adjust_contrast` /
`F.adjust_saturation` / `F.adjust_hue` are modelled freely: an image is the
trace of pixel operations applied to it so far, and each kernel appends its
operation.  `torch.distributions.Uniform(left, right).sample()` is modelled
as `left + u * (right - left)` for a draw `u` in `[0, 1)`, and
`torch.randperm(4)` as a given list that is a permutation of `[0, 1, 2, 3]`.
-/

/-- One external pixel operation together with its factor. -/
inductive PixelOp where
  | brightness (factor : ℚ)
  | contrast (factor : ℚ)
  | saturation (factor : ℚ)
  | hue (factor : ℚ)
deriving DecidableEq, Repr

/-- An image, modelled as the trace of pixel operations applied to it. -/
abbrev TraceImg := List PixelOp

/-- External kernel `F.adjust_brightness`: records its application. -/
def F.adjust_brightness (img : TraceImg) (brightness_factor : ℚ) : TraceImg :=
  img ++ [PixelOp.brightness brightness_factor]

/-- External kernel `F.adjust_contrast`: records its application. -/
def F.adjust_contrast (img : TraceImg) (contrast_factor : ℚ) : TraceImg :=
  img ++ [PixelOp.contrast contrast_factor]

/-- External kernel `F.adjust_saturation`: records its application. -/
def F.adjust_saturation (img : TraceImg) (saturation_factor : ℚ) : TraceImg :=
  img ++ [PixelOp.saturation saturation_factor]

/-- External kernel `F.adjust_hue`: records its application. -/
def F.adjust_hue (img : TraceImg) (hue_factor : ℚ) : TraceImg :=
  img ++ [PixelOp.hue hue_factor]

/-- The four normalized ranges a `ColorJitter` holds after construction. -/
structure ColorJitterT where
  brightness : Option (ℚ × ℚ)
  contrast : Option (ℚ × ℚ)
  saturation : Option (ℚ × ℚ)
  hue : Option (ℚ × ℚ)
deriving DecidableEq, Repr

/-- Embedding of `ColorJitter.__init__` (lines 17-28): each argument is run
through `_check_input`, hue with center `0`, bound `(-0.5, 0.5)` and the
zero-clamp flag off. -/
def ColorJitter.init (brightness contrast saturation hue : CJValue) :
    Except CJError ColorJitterT := do
  let b ← ColorJitter._check_input brightness
  let c ← ColorJitter._check_input contrast
  let s ← ColorJitter._check_input saturation
  let h ← ColorJitter._check_input hue 0 (-(1/2)) (Option.some (1/2)) false
  Except.ok ⟨b, c, s, h⟩

/-- Embedding of `ColorJitter._generate_value`:
`torch.distributions.Uniform(left, right).sample()` as `left + u * (right - left)`
for a uniform draw `u` in `[0, 1)`. -/
def ColorJitter._generate_value (left right u : ℚ) : ℚ :=
  left + u * (right - left)

/-- The parameter dictionary `ColorJitter._get_params` returns: the sampled
permutation `fn_idx` plus one optional factor per operation. -/
structure CJParams where
  fn_idx : List ℕ
  brightness_factor : Option ℚ
  contrast_factor : Option ℚ
  saturation_factor : Option ℚ
  hue_factor : Option ℚ
deriving DecidableEq, Repr

/-- Embedding of `ColorJitter._get_params` (lines 59-67): `fn_idx` is the
drawn permutation and `ub uc us uh` are the four uniform draws; a factor is
`None` exactly when its range is `None`, otherwise `_generate_value` of the
range endpoints. -/
def ColorJitter._get_params (t : ColorJitterT) (fn_idx : List ℕ)
    (ub uc us uh : ℚ) : CJParams :=
  ⟨fn_idx,
    t.brightness.map (fun r => ColorJitter._generate_value r.1 r.2 ub),
    t.contrast.map (fun r => ColorJitter._generate_value r.1 r.2 uc),
    t.saturation.map (fun r => ColorJitter._generate_value r.1 r.2 us),
    t.hue.map (fun r => ColorJitter._generate_value r.1 r.2 uh)⟩

/-- The body of the loop in `ColorJitter._transform` (lines 75-83): the
`if fn_id == k and factor is not None` chain for one `fn_id`. -/
def ColorJitter.applyStep (params : CJParams) (output : TraceImg) (fn_id : ℕ) :
    TraceImg :=
  if fn_id = 0 then
    match params.brightness_factor with
    | Option.some f => F.adjust_brightness output f
    | Option.none => output
  else if fn_id = 1 then
    match params.contrast_factor with
    | Option.some f => F.adjust_contrast output f
    | Option.none => output
  else if fn_id = 2 then
    match params.saturation_factor with
    | Option.some f => F.adjust_saturation output f
    | Option.none => output
  else if fn_id = 3 then
    match params.hue_factor with
    | Option.some f => F.adjust_hue output f
    | Option.none => output
  else output

/-- Embedding of `ColorJitter._transform` (lines 69-84): fold the loop body
over the sampled permutation, starting from the input. -/
def ColorJitter._transform (inpt : TraceImg) (params : CJParams) : TraceImg :=
  params.fn_idx.foldl (ColorJitter.applyStep params) inpt

/-- The operation dispatched for index `fn_id`, when its factor is set. -/
def CJParams.opAt (params : CJParams) (fn_id : ℕ) : Option PixelOp :=
  if fn_id = 0 then params.brightness_factor.map PixelOp.brightness
  else if fn_id = 1 then params.contrast_factor.map PixelOp.contrast
  else if fn_id = 2 then params.saturation_factor.map PixelOp.saturation
  else if fn_id = 3 then params.hue_factor.map PixelOp.hue
  else Option.none

/-- The operations enabled by `params`, in the order of the permutation. -/
def CJParams.enabledOps (params : CJParams) : TraceImg :=
  params.fn_idx.filterMap params.opAt

theorem applyStep_eq_append (params : CJParams) (output : TraceImg) (fn_id : ℕ) :
    ColorJitter.applyStep params output fn_id
      = output ++ (params.opAt fn_id).toList := by
  unfold ColorJitter.applyStep CJParams.opAt
  by_cases h0 : fn_id = 0
  · rw [if_pos h0, if_pos h0]
    cases params.brightness_factor <;> simp [F.adjust_brightness]
  · rw [if_neg h0, if_neg h0]
    by_cases h1 : fn_id = 1
    · rw [if_pos h1, if_pos h1]
      cases params.contrast_factor <;> simp [F.adjust_contrast]
    · rw [if_neg h1, if_neg h1]
      by_cases h2 : fn_id = 2
      · rw [if_pos h2, if_pos h2]
        cases params.saturation_factor <;> simp [F.adjust_saturation]
      · rw [if_neg h2, if_neg h2]
        by_cases h3 : fn_id = 3
        · rw [if_pos h3, if_pos h3]
          cases params.hue_factor <;> simp [F.adjust_hue]
        · rw [if_neg h3, if_neg h3]
          simp

theorem transform_foldl_eq (params : CJParams) (fn_idx : List ℕ)
    (inpt : TraceImg) :
    fn_idx.foldl (ColorJitter.applyStep params) inpt
      = inpt ++ fn_idx.filterMap params.opAt := by
  induction fn_idx generalizing inpt with
  | nil => simp
  | cons i rest ih =>
      simp only [List.foldl_cons, List.filterMap_cons]
      rw [ih, applyStep_eq_append]
      cases params.opAt i <;> simp

/-- C5: for every parameter dictionary whose `fn_idx` is a permutation of
`[0, 1, 2, 3]` and every input, `ColorJitter._transform` applies exactly the
pixel operations whose factor is non-None, each at most once (the applied
trace is a permutation of the list holding one operation per set factor), in
the relative order given by the permutation (None factors are skipped
without disturbing that order), and returns the input itself when every
factor is None. -/
theorem colorjitter_transform_dispatch (inpt : TraceImg) (params : CJParams)
    (hperm : params.fn_idx.Perm [0, 1, 2, 3]) :
    ColorJitter._transform inpt params = inpt ++ params.enabledOps
    ∧ params.enabledOps.Perm
        (params.brightness_factor.toList.map PixelOp.brightness
          ++ params.contrast_factor.toList.map PixelOp.contrast
          ++ params.saturation_factor.toList.map PixelOp.saturation
          ++ params.hue_factor.toList.map PixelOp.hue)
    ∧ (params.brightness_factor = Option.none → params.contrast_factor = Option.none →
        params.saturation_factor = Option.none → params.hue_factor = Option.none →
        ColorJitter._transform inpt params = inpt) := by
  have htrace : ColorJitter._transform inpt params = inpt ++ params.enabledOps :=
    transform_foldl_eq params params.fn_idx inpt
  refine ⟨htrace, ?_, ?_⟩
  · have hcanon : ([0, 1, 2, 3] : List ℕ).filterMap params.opAt
        = params.brightness_factor.toList.map PixelOp.brightness
          ++ params.contrast_factor.toList.map PixelOp.contrast
          ++ params.saturation_factor.toList.map PixelOp.saturation
          ++ params.hue_factor.toList.map PixelOp.hue := by
      obtain ⟨idx, bf, cf, sf, hf⟩ := params
      cases bf <;> cases cf <;> cases sf <;> cases hf <;>
        simp [CJParams.opAt, List.filterMap_cons]
    have hp := hperm.filterMap params.opAt
    rw [hcanon] at hp
    exact hp
  · intro hb hc hs hh
    rw [htrace]
    have hnil : params.enabledOps = [] := by
      unfold CJParams.enabledOps
      refine List.filterMap_eq_nil_iff.mpr (fun i _ => ?_)
      unfold CJParams.opAt
      rw [hb, hc, hs, hh]
      split_ifs <;> rfl
    rw [hnil, List.append_nil]

/-- Witness for C5: the permutation `[2, 0, 3, 1]` with only the brightness
and saturation factors set applies exactly saturation then brightness. -/
theorem colorjitter_transform_dispatch_witness :
    ColorJitter._transform []
        ⟨[2, 0, 3, 1], Option.some 5, Option.none, Option.some 7, Option.none⟩
      = [PixelOp.saturation 7, PixelOp.brightness 5] := by
  have h := colorjitter_transform_dispatch []
    ⟨[2, 0, 3, 1], Option.some 5, Option.none, Option.some 7, Option.none⟩
    (by decide)
  rw [h.1]
  rfl

/-- C6: a `ColorJitter` built with only `brightness = 0.2` normalizes it to
the range `(0.8, 1.2)` and leaves the other three ranges `None`; for every
sampled permutation and draws, the contrast, saturation and hue factors are
`None` and the transform applies exactly one brightness adjustment. -/
theorem colorjitter_brightness_only (fn_idx : List ℕ)
    (hperm : fn_idx.Perm [0, 1, 2, 3]) (ub uc us uh : ℚ) (inpt : TraceImg) :
    ColorJitter.init (CJValue.single (1/5)) CJValue.none CJValue.none CJValue.none
      = Except.ok ⟨Option.some (4/5, 6/5), Option.none, Option.none, Option.none⟩
    ∧ (ColorJitter._get_params ⟨Option.some (4/5, 6/5), Option.none, Option.none, Option.none⟩
        fn_idx ub uc us uh).contrast_factor = Option.none
    ∧ (ColorJitter._get_params ⟨Option.some (4/5, 6/5), Option.none, Option.none, Option.none⟩
        fn_idx ub uc us uh).saturation_factor = Option.none
    ∧ (ColorJitter._get_params ⟨Option.some (4/5, 6/5), Option.none, Option.none, Option.none⟩
        fn_idx ub uc us uh).hue_factor = Option.none
    ∧ ColorJitter._transform inpt
        (ColorJitter._get_params ⟨Option.some (4/5, 6/5), Option.none, Option.none, Option.none⟩
          fn_idx ub uc us uh)
      = inpt ++ [PixelOp.brightness (ColorJitter._generate_value (4/5) (6/5) ub)] := by
  refine ⟨?_, rfl, rfl, rfl, ?_⟩
  · norm_num [ColorJitter.init, ColorJitter._check_input, max_eq_left]
    rfl
  · set params : CJParams :=
      ColorJitter._get_params ⟨Option.some (4/5, 6/5), Option.none, Option.none, Option.none⟩
        fn_idx ub uc us uh with hparams
    have htrace : ColorJitter._transform inpt params
        = inpt ++ fn_idx.filterMap params.opAt :=
      transform_foldl_eq params fn_idx inpt
    have hp : (fn_idx.filterMap params.opAt).Perm
        (([0, 1, 2, 3] : List ℕ).filterMap params.opAt) :=
      hperm.filterMap params.opAt
    have hcanon : (([0, 1, 2, 3] : List ℕ).filterMap params.opAt)
        = [PixelOp.brightness (ColorJitter._generate_value (4/5) (6/5) ub)] := by
      simp [hparams, CJParams.opAt, ColorJitter._get_params, List.filterMap_cons]
    rw [hcanon] at hp
    rw [htrace, List.perm_singleton.mp hp]

/-- Witness for C6 at the permutation `[3, 2, 1, 0]` and draw `1/2`: the
sampled brightness factor is `1` and exactly one brightness op is applied. -/
theorem colorjitter_brightness_only_witness :
    ColorJitter._transform []
        (ColorJitter._get_params
          ⟨Option.some (4/5, 6/5), Option.none, Option.none, Option.none⟩
          [3, 2, 1, 0] (1/2) 0 0 0)
      = [PixelOp.brightness 1] := by
  have h := colorjitter_brightness_only [3, 2, 1, 0] (by decide) (1/2) 0 0 0 []
  rw [h.2.2.2.2]
  norm_num [ColorJitter._generate_value]

/-!
_RandomChannelShuffle (lines 87-108 of `_color.py`).  An image's pixel data
is a list of channels, each channel a list of rows of integer pixel values.
The input union covers the kinds `_transform` distinguishes at run time:
`features.Image` (with its color-space tag), `PIL.Image.Image`, a plain
tensor, and non-image variants such as a bounding-box record or a label.
The conversions `pil_to_tensor` / `to_pil_image` are modelled as the
identity on the pixel data (lossless for this operation, as the spec
requires).
-/

/-- Color-space tag of a `features.Image` (`features.ColorSpace`). -/
inductive ColorSpace where
  | grayscale
  | rgb
  | other
deriving DecidableEq, Repr

/-- One channel: rows of integer pixel values. -/
abbrev Channel := List (List ℤ)

/-- Pixel data of an image: its list of channels. -/
abbrev ImgData := List Channel

/-- Pixel at channel `c`, row `y`, column `x` (0 outside the data). -/
def getPixel (img : ImgData) (c y x : ℕ) : ℤ :=
  ((img.getD c []).getD y []).getD x 0

/-- The run-time kinds of input `_RandomChannelShuffle._transform`
distinguishes: `features.Image`, `PIL.Image.Image`, a simple tensor, and
non-image variants (bounding box, label) that pass through. -/
inductive Inpt where
  | image (data : ImgData) (colorSpace : ColorSpace)
  | pilImage (data : ImgData)
  | simpleTensor (data : ImgData)
  | boundingBox (coords : List ℚ)
  | label (value : ℕ)
deriving DecidableEq, Repr

/-- Whether the input is one of the image kinds accepted by the
`isinstance(inpt, (features.Image, PIL.Image.Image)) or is_simple_tensor`
guard. -/
def Inpt.isImageKind : Inpt → Bool
  | Inpt.image _ _ => true
  | Inpt.pilImage _ => true
  | Inpt.simpleTensor _ => true
  | Inpt.boundingBox _ => false
  | Inpt.label _ => false

/-- The advanced indexing `image[..., permutation, :, :]`: pick channels in
the order listed by `permutation`. -/
def indexChannels (data : ImgData) (permutation : List ℕ) : ImgData :=
  permutation.map (fun i => data.getD i [])

/-- Embedding of `_RandomChannelShuffle._transform` (lines 93-108): a
non-image input is returned unchanged; an image has its channels reordered
by the sampled permutation; a `features.Image` output is rebuilt via
`Image.new_like` with color space `OTHER`; a PIL input is converted to a
tensor and back (identity on the pixel data). -/
def _RandomChannelShuffle._transform (inpt : Inpt) (permutation : List ℕ) :
    Inpt :=
  match inpt with
  | Inpt.image data _cs => Inpt.image (indexChannels data permutation) ColorSpace.other
  | Inpt.pilImage data => Inpt.pilImage (indexChannels data permutation)
  | Inpt.simpleTensor data => Inpt.simpleTensor (indexChannels data permutation)
  | Inpt.boundingBox coords => Inpt.boundingBox coords
  | Inpt.label value => Inpt.label value

/-- C7: for every input that is not an image kind (for example a
bounding-box record or a label) and every sampled permutation,
`_RandomChannelShuffle._transform` returns the input unchanged and raises
no error. -/
theorem channel_shuffle_passthrough (inpt : Inpt) (permutation : List ℕ)
    (h : inpt.isImageKind = false) :
    _RandomChannelShuffle._transform inpt permutation = inpt := by
  cases inpt with
  | image data cs => exact absurd h (by simp [Inpt.isImageKind])
  | pilImage data => exact absurd h (by simp [Inpt.isImageKind])
  | simpleTensor data => exact absurd h (by simp [Inpt.isImageKind])
  | boundingBox coords => rfl
  | label value => rfl

/-- Witness for C7: a concrete bounding-box record passes through the
shuffle with permutation `[1, 0]` unchanged. -/
theorem channel_shuffle_passthrough_witness :
    _RandomChannelShuffle._transform (Inpt.boundingBox [1, 2, 3, 4]) [1, 0]
      = Inpt.boundingBox [1, 2, 3, 4] :=
  channel_shuffle_passthrough (Inpt.boundingBox [1, 2, 3, 4]) [1, 0] rfl

/-- C8: on a 3-channel image with the permutation `[2, 0, 1]`, the shuffle
produces channel order `[old_2, old_0, old_1]` exactly — for all three image
kinds, and pixel for pixel — and a `features.Image` input has its output's
color space tagged `OTHER`. -/
theorem channel_shuffle_permutes_channels (c0 c1 c2 : Channel) (cs : ColorSpace) :
    _RandomChannelShuffle._transform (Inpt.image [c0, c1, c2] cs) [2, 0, 1]
      = Inpt.image [c2, c0, c1] ColorSpace.other
    ∧ _RandomChannelShuffle._transform (Inpt.pilImage [c0, c1, c2]) [2, 0, 1]
      = Inpt.pilImage [c2, c0, c1]
    ∧ _RandomChannelShuffle._transform (Inpt.simpleTensor [c0, c1, c2]) [2, 0, 1]
      = Inpt.simpleTensor [c2, c0, c1]
    ∧ ∀ (y x : ℕ),
        getPixel [c2, c0, c1] 0 y x = getPixel [c0, c1, c2] 2 y x
        ∧ getPixel [c2, c0, c1] 1 y x = getPixel [c0, c1, c2] 0 y x
        ∧ getPixel [c2, c0, c1] 2 y x = getPixel [c0, c1, c2] 1 y x :=
  ⟨rfl, rfl, rfl, fun _ _ => ⟨rfl, rfl, rfl⟩⟩

/-!
RandomPhotometricDistort (lines 111-150 of `_color.py`).  Its `_transform`
dispatches into five sub-transforms; here an input is the trace of
sub-transform applications, so the theorem can speak about which
sub-transforms run and in which order.  `_get_params` draws six independent
Bernoulli(p) gates named `brightness`, `contrast1`, `saturation`, `hue`,
`contrast2`, `channel_shuffle`, plus a fair coin `contrast_before`; the
gate values are the model's inputs.
-/

/-- One sub-transform application of `RandomPhotometricDistort`. -/
inductive DistortOp where
  | brightness
  | contrast
  | saturation
  | hue
  | channelShuffle
deriving DecidableEq, Repr

/-- The gate dictionary `RandomPhotometricDistort._get_params` returns
(lines 128-135): six Bernoulli(p) gates plus the `contrast_before` coin. -/
structure PDParams where
  brightness : Bool
  contrast1 : Bool
  saturation : Bool
  hue : Bool
  contrast2 : Bool
  channel_shuffle : Bool
  contrast_before : Bool
deriving DecidableEq, Repr

/-- Embedding of `RandomPhotometricDistort._transform` (lines 137-150),
line for line: note the duplicated saturation block and the absence of any
use of the `hue` gate, both present in the source. -/
def RandomPhotometricDistort._transform (inpt : List DistortOp)
    (params : PDParams) : List DistortOp :=
  let inpt := if params.brightness then inpt ++ [DistortOp.brightness] else inpt
  let inpt := if params.contrast1 && params.contrast_before then inpt ++ [DistortOp.contrast] else inpt
  let inpt := if params.saturation then inpt ++ [DistortOp.saturation] else inpt
  let inpt := if params.saturation then inpt ++ [DistortOp.saturation] else inpt
  let inpt := if params.contrast2 && !params.contrast_before then inpt ++ [DistortOp.contrast] else inpt
  let inpt := if params.channel_shuffle then inpt ++ [DistortOp.channelShuffle] else inpt
  inpt

/-- The application order stated by the spec: brightness if gated, contrast
if gated and `contrast_before`, saturation twice if gated, never hue,
contrast if gated and not `contrast_before`, channel shuffle if gated. -/
def specDistortOrder (params : PDParams) : List DistortOp :=
  (if params.brightness then [DistortOp.brightness] else [])
  ++ (if params.contrast1 && params.contrast_before then [DistortOp.contrast] else [])
  ++ (if params.saturation then [DistortOp.saturation, DistortOp.saturation] else [])
  ++ (if params.contrast2 && !params.contrast_before then [DistortOp.contrast] else [])
  ++ (if params.channel_shuffle then [DistortOp.channelShuffle] else [])

/-- C9: for every input and gate dictionary,
`RandomPhotometricDistort._transform` applies exactly the sub-transforms of
`specDistortOrder`, in that order: brightness if gated, contrast if gated
and `contrast_before`, saturation twice if gated, contrast if gated and not
`contrast_before`, channel shuffle if gated; hue is never applied and its
gate has no effect on the output. -/
theorem photometric_distort_apply_order (inpt : List DistortOp)
    (params : PDParams) :
    RandomPhotometricDistort._transform inpt params = inpt ++ specDistortOrder params
    ∧ DistortOp.hue ∉ specDistortOrder params
    ∧ ∀ (hv : Bool),
        RandomPhotometricDistort._transform inpt { params with hue := hv }
          = RandomPhotometricDistort._transform inpt params := by
  obtain ⟨b, c1, s, h, c2, sh, cb⟩ := params
  refine ⟨?_, ?_, fun hv => ?_⟩ <;>
    cases b <;> cases c1 <;> cases s <;> cases c2 <;> cases sh <;> cases cb <;>
      simp [RandomPhotometricDistort._transform, specDistortOrder]

/-!
RandomEqualize (lines 153-158 of `_color.py`).  Its `_transform` calls the
external kernel `F.equalize`; the gating lives in `_RandomApplyTransform`
(imported from `._transform`, a file absent from the sources), so the gate
is modelled from the spec.
-/

/-- Modelled from the spec: `_RandomApplyTransform` (defined in
`_transform.py`, which is not among the sources) gates its subclass's
`_transform` on a single Bernoulli(p) draw — the sub-transform runs exactly
when a uniform draw `u` in `[0, 1)` falls below `p`, and otherwise the
input passes through unchanged. -/
def _RandomApplyTransform.call {α : Type} (p u : ℚ) (tf : α → α) (inpt : α) : α :=
  if u < p then tf inpt else inpt

/-- Embedding of `RandomEqualize` (lines 153-158): its `_transform` applies
the external `F.equalize` kernel (passed here as a function), under the
inherited random-apply gate. -/
def RandomEqualize.call {α : Type} (p u : ℚ) (equalize : α → α) (inpt : α) : α :=
  _RandomApplyTransform.call p u equalize inpt

/-- C10: for every uniform draw `u` in `[0, 1)`, `RandomEqualize` with
`p = 1` replaces every input with its equalized version, and with `p = 0`
it returns the input itself, unequalized. -/
theorem random_equalize_gate {α : Type} (u : ℚ) (h0 : 0 ≤ u) (h1 : u < 1)
    (equalize : α → α) (inpt : α) :
    RandomEqualize.call 1 u equalize inpt = equalize inpt
    ∧ RandomEqualize.call 0 u equalize inpt = inpt := by
  constructor
  · unfold RandomEqualize.call _RandomApplyTransform.call
    rw [if_pos h1]
  · unfold RandomEqualize.call _RandomApplyTransform.call
    rw [if_neg (not_lt.mpr h0)]

/-- Witness for C10 at the draw `u = 1/2` on the spec's 2x2 single-channel
image `[[0, 0], [255, 255]]`, with a concrete stand-in equalize kernel:
`p = 1` yields the kernel's output, `p = 0` yields the input bit for bit. -/
theorem random_equalize_gate_witness :
    RandomEqualize.call 1 (1/2) (fun _ => [[[0, 255], [0, 255]]])
        ([[[0, 0], [255, 255]]] : ImgData)
      = [[[0, 255], [0, 255]]]
    ∧ RandomEqualize.call 0 (1/2) (fun _ => [[[0, 255], [0, 255]]])
        ([[[0, 0], [255, 255]]] : ImgData)
      = [[[0, 0], [255, 255]]] :=
  random_equalize_gate (1/2) (by norm_num) (by norm_num)
    (fun _ => [[[0, 255], [0, 255]]]) [[[0, 0], [255, 255]]]
